import Mathlib

/-!
A shallow embedding of `g2g.go`: a small Go library that periodically
publishes registered expvars to a Graphite server over a TCP connection.

Modelling choices:
* `time.Time`, `time.Duration` and unix timestamps are integers in abstract
  units; the clock reads a `postOne` call performs are supplied by a
  `NetEnv` environment, together with the outcomes of the three fallible
  network operations (`net.Dial`, `SetWriteDeadline`, `Write`).
* `net.Conn` handles are abstract (`Conn`), identified by a number.
* An `expvar.Var` is used by the code only through `v.String()`, so a
  registered variable is modelled by its rendered text.
* The Go map `g.vars` is an association list with distinct keys, updated by
  `mapAssign` (the embedding of `g.vars[nv.name] = nv.v`).
* Network-visible actions are recorded in an `Event` trace so that theorems
  can speak about what was dialled, written, or closed.
* The event loop `loop` is a step function on `LoopState`; the loop having
  returned (after a shutdown request) is the `running = false` state, in
  which no message is ever received or processed.
-/

namespace G2G

/-- An established TCP connection handle (`net.Conn`), abstract but
distinguishable. -/
structure Conn where
  id : Nat
deriving DecidableEq

/-- The errors the code can return: a dial failure (from `net.Dial` inside
`reconnect`), a `SetWriteDeadline` failure, a `Write` failure, and the
short-write error built by `fmt.Errorf` at src/g2g.go:111 with the metric
name, the value, the bytes written and the bytes requested. -/
inductive GoErr where
  | dialErr (msg : String)
  | deadlineErr (msg : String)
  | writeErr (msg : String)
  | shortWrite (name value : String) (n len : Nat)
deriving DecidableEq

/-- The fields of the `Graphite` struct (src/g2g.go:14-23) that carry data.
The two channels are modelled by the message alphabet `Msg` below. -/
structure GState where
  endpoint : String
  interval : Int
  timeout : Int
  lastPublish : Int
  connection : Option Conn
  vars : List (String × String)
deriving DecidableEq

/-- The environment of one `postOne` call: the outcome `net.Dial` would have
(`dialConn`), the outcome of `SetWriteDeadline` (`none` = success), the
outcome of `Write` (error, or the number of bytes it reports written), the
clock read used for the write deadline (`now`) and the unix-seconds clock
read used in the formatted line (`nowUnix`). -/
structure NetEnv where
  dialConn : Except String Conn
  deadlineRes : Option String
  writeRes : Except String Nat
  now : Int
  nowUnix : Int

/-- Network-visible actions, recorded in traces. -/
inductive Event where
  | dialAttempt (endpoint : String)
  | setWriteDeadline (deadline : Int)
  | write (c : Conn) (bytes : String)
  | closeConn (c : Conn)
deriving DecidableEq

/-- Is this event a dial attempt? -/
def Event.isDial : Event → Bool
  | .dialAttempt _ => true
  | _ => false

/-- Is this event a network write? -/
def Event.isWrite : Event → Bool
  | .write _ _ => true
  | _ => false

/-- The line built at src/g2g.go:107:
`fmt.Sprintf("%s %s %d\n", name, value, time.Now().Unix())`. -/
def formatLine (name value : String) (unixSec : Int) : String :=
  name ++ " " ++ value ++ " " ++ toString unixSec ++ "\n"

/-- `reconnect` (src/g2g.go:117-124): one `net.Dial` to the fixed endpoint;
on failure the state is unchanged and the dial error is returned; on success
the fresh connection is installed in `g.connection`. -/
def reconnect (dialConn : Except String Conn) (g : GState) :
    Except GoErr GState × List Event :=
  match dialConn with
  | .error e => (.error (.dialErr e), [.dialAttempt g.endpoint])
  | .ok conn => (.ok { g with connection := some conn }, [.dialAttempt g.endpoint])

/-- The body of `postOne` after the nil-connection check (src/g2g.go:103-113),
running against the live connection `c`: set the write deadline to
`now + timeout`, format the line, write it once, and flag a short write
(`n != len(b)`, with `len` the UTF-8 byte length of the line). -/
def postOneWith (env : NetEnv) (g : GState) (c : Conn) (name value : String) :
    GState × Option GoErr × List Event :=
  let deadline := env.now + g.timeout
  match env.deadlineRes with
  | some e => (g, some (.deadlineErr e), [.setWriteDeadline deadline])
  | none =>
    let b := formatLine name value env.nowUnix
    match env.writeRes with
    | .error e => (g, some (.writeErr e), [.setWriteDeadline deadline, .write c b])
    | .ok n =>
      if n ≠ b.utf8ByteSize then
        (g, some (.shortWrite name value n b.utf8ByteSize),
          [.setWriteDeadline deadline, .write c b])
      else
        (g, none, [.setWriteDeadline deadline, .write c b])

/-- `postOne` (src/g2g.go:97-114). When `g.connection == nil` the body of
`reconnect` (a single `net.Dial`) runs at the call site: a dial failure
aborts the send with the dial error before any write, a dial success
installs the fresh connection and the send proceeds on it. -/
def postOne (env : NetEnv) (g : GState) (name value : String) :
    GState × Option GoErr × List Event :=
  match g.connection with
  | some c => postOneWith env g c name value
  | none =>
    match env.dialConn with
    | .error e => (g, some (.dialErr e), [.dialAttempt g.endpoint])
    | .ok c =>
      let g1 : GState := { g with connection := some c }
      let r := postOneWith env g1 c name value
      (r.1, r.2.1, .dialAttempt g.endpoint :: r.2.2)

/-- The `for name, v := range g.vars` loop of `postAll` (src/g2g.go:87-91):
each entry is attempted with `postOne`; an error is logged (recorded here in
the per-name result list) and the loop continues. `envs i` is the network
environment of the `i`-th send of the pass. -/
def postList (envs : Nat → NetEnv) (i : Nat) (g : GState)
    (entries : List (String × String)) :
    GState × List (String × Option GoErr) × List Event :=
  match entries with
  | [] => (g, [], [])
  | (name, v) :: rest =>
    let r := postOne (envs i) g name v
    let rs := postList envs (i + 1) r.1 rest
    (rs.1, (name, r.2.1) :: rs.2.1, r.2.2 ++ rs.2.2)

/-- `postAll` (src/g2g.go:86-93): attempt every registered entry, then set
`g.lastPublish = time.Now()` unconditionally; `passEnd` is that clock read. -/
def postAll (envs : Nat → NetEnv) (passEnd : Int) (g : GState) :
    GState × List (String × Option GoErr) × List Event :=
  let r := postList envs 0 g g.vars
  ({ r.1 with lastPublish := passEnd }, r.2.1, r.2.2)

/-- `nextPublishDelay` (src/g2g.go:128-133):
`absoluteNext := lastPublish.Add(interval); deltaNext := absoluteNext.Sub(now)`. -/
def nextPublishDelay (g : GState) (now : Int) : Int :=
  g.lastPublish + g.interval - now

/-- The Go map assignment `g.vars[nv.name] = nv.v` (src/g2g.go:73) on the
association-list model: overwrite the entry for the key in place if one is
present, otherwise add a new entry. (A Go map is unordered; the list order
is an artifact of the model.) -/
def mapAssign (m : List (String × String)) (k v : String) :
    List (String × String) :=
  match m with
  | [] => [(k, v)]
  | (k', v') :: rest =>
    if k' = k then (k, v) :: rest else (k', v') :: mapAssign rest k v

/-- Go map lookup `m[k]` on the association-list model. -/
def varsLookup (m : List (String × String)) (k : String) : Option String :=
  match m with
  | [] => none
  | (k', v) :: rest => if k' = k then some v else varsLookup rest k

/-- The messages the event loop can receive: a registration (a `namedVar`
from the `g.registrations` channel), an expiry of the `time.After` timer
(carrying the pass's network environments and its end-of-pass clock read),
and a shutdown request from the `g.shutdown` channel. -/
inductive Msg where
  | registration (name v : String)
  | timer (envs : Nat → NetEnv) (passEnd : Int)
  | shutdown

/-- The state of the event loop: the `Graphite` fields plus whether `loop`
(src/g2g.go:69-83) is still running. `running = false` is the absorbing
state after the `return` at src/g2g.go:80. -/
structure LoopState where
  g : GState
  running : Bool
deriving DecidableEq

/-- One iteration of `loop` (src/g2g.go:69-83): on a registration, assign
into the map; on timer expiry, run one `postAll` pass; on shutdown, close
the connection, nil it, acknowledge (`q <- true`, the `Bool` component) and
return. After the loop has returned no message is ever received, nothing
changes and no event is emitted. The `connection.Close()` at src/g2g.go:77
is recorded when a connection is present (while running it always is, since
construction installs one and nothing else clears it). -/
def loopStep (s : LoopState) (m : Msg) : LoopState × List Event × Bool :=
  if s.running then
    match m with
    | .registration name v =>
      ({ s with g := { s.g with vars := mapAssign s.g.vars name v } }, [], false)
    | .timer envs passEnd =>
      let r := postAll envs passEnd s.g
      ({ s with g := r.1 }, r.2.2, false)
    | .shutdown =>
      let closeEvs := match s.g.connection with
        | some c => [Event.closeConn c]
        | none => []
      ({ g := { s.g with connection := none }, running := false }, closeEvs, true)
  else (s, [], false)

/-- Run the loop over a list of messages, collecting the event trace. -/
def loopRun (s : LoopState) (msgs : List Msg) : LoopState × List Event :=
  match msgs with
  | [] => (s, [])
  | m :: rest =>
    let r := loopStep s m
    let rs := loopRun r.1 rest
    (rs.1, r.2.1 ++ rs.2)

/-- The result of `NewGraphite`: the returned handle (with its loop state)
or the error, and whether `go g.loop()` was reached. -/
structure NewResult where
  handle : Option LoopState
  err : Option GoErr
  loopStarted : Bool
deriving DecidableEq

/-- `NewGraphite` (src/g2g.go:36-52): build the struct with
`lastPublish = time.Now()` (the construction-time clock read `now`), a nil
connection and an empty map; dial once via `reconnect`; on failure return
the error and no handle (the loop is never started); on success start the
loop and return the handle. -/
def NewGraphite (endpoint : String) (interval timeout : Int) (now : Int)
    (dialConn : Except String Conn) : NewResult :=
  let g : GState :=
    { endpoint := endpoint, interval := interval, timeout := timeout
      lastPublish := now, connection := none, vars := [] }
  match (reconnect dialConn g).1 with
  | .error e => { handle := none, err := some e, loopStarted := false }
  | .ok g1 => { handle := some { g := g1, running := true }, err := none, loopStarted := true }

/-- The capacity of the `g.registrations` channel:
`make(chan namedVar)` (src/g2g.go:44) creates an unbuffered channel. -/
def registrationsChanCap : Nat := 0

/-- Whether the event loop is ready to receive on `g.registrations`: the
`select` at src/g2g.go:71-81 has a `case nv := <-g.registrations` arm, and
runs only while `loop` has not returned. -/
def loopReceiverReady (s : LoopState) : Bool := s.running

/-- Whether a call to `Register` (src/g2g.go:57-59) returns to its caller.
The call performs the channel send `g.registrations <- namedVar{name, v}`;
by Go channel semantics a send on a channel of capacity 0 completes exactly
when a receiver is ready, and otherwise blocks the sender. -/
def registerReturns (s : LoopState) : Bool :=
  decide (0 < registrationsChanCap) || loopReceiverReady s

/-- The effect of a processed sequence of registration messages: the loop
run over them (registrations are received in order by the coordinator). -/
def applyRegistrations (s : LoopState) (msgs : List (String × String)) :
    LoopState :=
  (loopRun s (msgs.map fun p => Msg.registration p.1 p.2)).1

/-- The value of the most recent registration under key `k` in a message
sequence, if any. -/
def lastRegistered (msgs : List (String × String)) (k : String) :
    Option String :=
  match msgs with
  | [] => none
  | (k', v) :: rest =>
    match lastRegistered rest k with
    | some w => some w
    | none => if k' = k then some v else none

/-- A sample `Graphite` state with a live connection, for concrete
instantiations. -/
def gEx : GState :=
  { endpoint := "stats:2003", interval := 10, timeout := 1,
    lastPublish := 0, connection := some ⟨7⟩, vars := [] }

/-- The sample state with the connection handle absent. -/
def gNoConn : GState := { gEx with connection := none }

/-- A sample environment in which every network operation succeeds and the
write delivers the full 12-byte line of the sample metric. -/
def envEx : NetEnv :=
  { dialConn := .ok ⟨7⟩, deadlineRes := none, writeRes := .ok 12,
    now := 3, nowUnix := 99 }

/-- A sample environment in which the write fails with a transport error. -/
def envWriteFail : NetEnv :=
  { dialConn := .ok ⟨7⟩, deadlineRes := none, writeRes := .error "broken pipe",
    now := 3, nowUnix := 99 }

/-- A sample environment in which the dial fails. -/
def envDialFail : NetEnv :=
  { dialConn := .error "connection refused", deadlineRes := none,
    writeRes := .ok 0, now := 3, nowUnix := 99 }

/-- A sample environment in which the write reports success but only 3 of
the line's bytes were written. -/
def envShort : NetEnv :=
  { dialConn := .ok ⟨7⟩, deadlineRes := none, writeRes := .ok 3,
    now := 3, nowUnix := 99 }

/-! ## Helper lemmas -/

/-- `postOneWith` never changes the `Graphite` state: in particular it never
clears or replaces the connection, whatever the deadline or write outcome. -/
theorem postOneWith_state (env : NetEnv) (g : GState) (c : Conn)
    (name value : String) : (postOneWith env g c name value).1 = g := by
  unfold postOneWith
  cases env.deadlineRes with
  | some e => rfl
  | none =>
    cases env.writeRes with
    | error e => rfl
    | ok n =>
      by_cases hn : n ≠ (formatLine name value env.nowUnix).utf8ByteSize <;>
        simp [hn]

/-- The trace of `postOneWith`: no dial attempt, at most one write, and any
write is on the given connection with the formatted line as payload. -/
theorem postOneWith_events (env : NetEnv) (g : GState) (c : Conn)
    (name value : String) :
    (postOneWith env g c name value).2.2.countP Event.isDial = 0 ∧
    (postOneWith env g c name value).2.2.countP Event.isWrite ≤ 1 ∧
    ∀ c' b, Event.write c' b ∈ (postOneWith env g c name value).2.2 →
      c' = c ∧ b = formatLine name value env.nowUnix := by
  unfold postOneWith
  cases env.deadlineRes with
  | some e => simp [Event.isDial, Event.isWrite]
  | none =>
    cases env.writeRes with
    | error e => simp [Event.isDial, Event.isWrite]
    | ok n =>
      by_cases hn : n ≠ (formatLine name value env.nowUnix).utf8ByteSize <;>
        simp [hn, Event.isDial, Event.isWrite]

/-- `postOne` either leaves the state unchanged, or (only when the
connection was absent and the dial succeeded) installs the dialled
connection and changes nothing else. -/
theorem postOne_state (env : NetEnv) (g : GState) (name value : String) :
    (postOne env g name value).1 = g ∨
    ∃ c, env.dialConn = .ok c ∧ g.connection = none ∧
      (postOne env g name value).1 = { g with connection := some c } := by
  unfold postOne
  cases hc : g.connection with
  | some c => exact Or.inl (postOneWith_state env g c name value)
  | none =>
    cases hd : env.dialConn with
    | error e => exact Or.inl rfl
    | ok c =>
      exact Or.inr ⟨c, rfl, rfl, postOneWith_state env _ c name value⟩

/-- Fields other than the connection are never changed by `postOne`. -/
theorem postOne_frame (env : NetEnv) (g : GState) (name value : String) :
    (postOne env g name value).1.endpoint = g.endpoint ∧
    (postOne env g name value).1.interval = g.interval ∧
    (postOne env g name value).1.timeout = g.timeout ∧
    (postOne env g name value).1.lastPublish = g.lastPublish ∧
    (postOne env g name value).1.vars = g.vars := by
  rcases postOne_state env g name value with h | ⟨c, _, _, h⟩ <;> simp [h]

/-- The per-name result list of a pass covers exactly the entries the pass
started from, in order, whatever the outcome of each send. -/
theorem postList_names (envs : Nat → NetEnv)
    (entries : List (String × String)) :
    ∀ i g, (postList envs i g entries).2.1.map Prod.fst =
      entries.map Prod.fst := by
  induction entries with
  | nil => intro i g; rfl
  | cons p rest ih =>
    intro i g
    obtain ⟨name, v⟩ := p
    simp [postList, ih]

/-- The interval field survives a whole pass. -/
theorem postList_interval (envs : Nat → NetEnv)
    (entries : List (String × String)) :
    ∀ i g, (postList envs i g entries).1.interval = g.interval := by
  induction entries with
  | nil => intro i g; rfl
  | cons p rest ih =>
    intro i g
    obtain ⟨name, v⟩ := p
    simp [postList, ih, (postOne_frame (envs i) g name v).2.1]

/-- Once the loop has returned, no message changes anything and no event is
ever emitted again. -/
theorem loopRun_halted (s : LoopState) (h : s.running = false)
    (msgs : List Msg) : loopRun s msgs = (s, []) := by
  induction msgs with
  | nil => rfl
  | cons m rest ih => simp [loopRun, loopStep, h, ih]

/-- The Go map assignment read back: the assigned key now maps to the new
value, every other key is untouched. -/
theorem varsLookup_mapAssign (m : List (String × String)) (k v k' : String) :
    varsLookup (mapAssign m k v) k' =
      if k' = k then some v else varsLookup m k' := by
  induction m with
  | nil =>
    by_cases h : k = k'
    · subst h; simp [mapAssign, varsLookup]
    · have h' : ¬(k' = k) := fun hh => h hh.symm
      simp [mapAssign, varsLookup, h, h']
  | cons p rest ih =>
    obtain ⟨k0, v0⟩ := p
    by_cases h0 : k0 = k
    · subst h0
      by_cases h' : k0 = k'
      · subst h'; simp [mapAssign, varsLookup]
      · have h'' : ¬(k' = k0) := fun hh => h' hh.symm
        simp [mapAssign, varsLookup, h', h'']
    · by_cases h2 : k0 = k'
      · subst h2
        simp [mapAssign, varsLookup, h0]
      · simp [mapAssign, varsLookup, h0, h2, ih]

/-! ## Claim theorems -/

/-- Claim C1. Construction fail-fast: `NewGraphite` dials the endpoint
immediately; if the dial fails it returns the dial error and no handle, and
the event loop is not started; if the dial succeeds it returns a handle
with an empty registry, the freshly opened connection, and last-publish
baseline equal to the construction time, with the event loop running. -/
theorem newGraphite_fail_fast (endpoint : String) (interval timeout now : Int)
    (dialConn : Except String Conn) :
    (∀ e, dialConn = .error e →
      NewGraphite endpoint interval timeout now dialConn =
        { handle := none, err := some (.dialErr e), loopStarted := false }) ∧
    (∀ c, dialConn = .ok c →
      NewGraphite endpoint interval timeout now dialConn =
        { handle := some
            { g := { endpoint := endpoint, interval := interval,
                     timeout := timeout, lastPublish := now,
                     connection := some c, vars := [] },
              running := true },
          err := none, loopStarted := true }) := by
  constructor
  · rintro e rfl; rfl
  · rintro c rfl; rfl

/-- Witness for C1 at concrete inputs: a refused dial fails construction
with the dial error and no running loop; a successful dial yields the live
handle. -/
theorem newGraphite_fail_fast_witness :
    NewGraphite "stats:2003" 10 1 5 (.error "refused") =
      { handle := none, err := some (.dialErr "refused"),
        loopStarted := false } ∧
    NewGraphite "stats:2003" 10 1 5 (.ok ⟨7⟩) =
      { handle := some
          { g := { endpoint := "stats:2003", interval := 10, timeout := 1,
                   lastPublish := 5, connection := some ⟨7⟩, vars := [] },
            running := true },
        err := none, loopStarted := true } :=
  ⟨(newGraphite_fail_fast "stats:2003" 10 1 5 (.error "refused")).1
      "refused" rfl,
   (newGraphite_fail_fast "stats:2003" 10 1 5 (.ok ⟨7⟩)).2 ⟨7⟩ rfl⟩

/-- Claim C2. Shutdown drains and closes: the shutdown step acknowledges,
closes the connection, nils it, and terminates the loop; from then on no
message sequence — a pending publish pass included — changes the state or
produces any network event. -/
theorem shutdown_drains_and_closes (s : LoopState) (h : s.running = true)
    (msgs : List Msg) :
    (loopStep s .shutdown).2.2 = true ∧
    (loopStep s .shutdown).1.running = false ∧
    (loopStep s .shutdown).1.g.connection = none ∧
    (∀ c, s.g.connection = some c →
      (loopStep s .shutdown).2.1 = [.closeConn c]) ∧
    loopRun (loopStep s .shutdown).1 msgs = ((loopStep s .shutdown).1, []) := by
  have hstep : (loopStep s .shutdown).1.running = false := by
    simp [loopStep, h]
  refine ⟨by simp [loopStep, h], hstep, by simp [loopStep, h], ?_,
    loopRun_halted _ hstep msgs⟩
  rintro c hc
  simp [loopStep, h, hc]

/-- Witness for C2: shutting the sample state down acknowledges, closes the
sample connection, and a pending pass plus a registration afterwards do
nothing. -/
theorem shutdown_drains_and_closes_witness :
    (loopStep ⟨gEx, true⟩ .shutdown).2.2 = true ∧
    (loopStep ⟨gEx, true⟩ .shutdown).2.1 = [.closeConn ⟨7⟩] ∧
    loopRun (loopStep ⟨gEx, true⟩ .shutdown).1
        [.timer (fun _ => envEx) 50, .registration "a" "1"] =
      ((loopStep ⟨gEx, true⟩ .shutdown).1, []) := by
  have h := shutdown_drains_and_closes ⟨gEx, true⟩ rfl
    [.timer (fun _ => envEx) 50, .registration "a" "1"]
  exact ⟨h.1, h.2.2.2.1 ⟨7⟩ rfl, h.2.2.2.2⟩

/-- Claim C3. Pass completeness: in every pass, whatever the network does
on each send, the per-name results cover exactly the names registered at
pass start, in order, each exactly once — a failing send never aborts the
pass, skips later metrics, or removes earlier results. -/
theorem pass_completeness (envs : Nat → NetEnv) (passEnd : Int) (g : GState) :
    ((postAll envs passEnd g).2.1).map Prod.fst = g.vars.map Prod.fst := by
  simp [postAll, postList_names]

/-- Claim C4. Last-write-wins registration: after the coordinator processes
any sequence of registration messages, each name looks up to the value of
its most recent registration (or its prior value when the sequence never
registers it, so no entry is ever removed); the loop stays running and no
event — in particular no error — is produced. -/
theorem last_write_wins (msgs : List (String × String)) (s : LoopState)
    (h : s.running = true) (k : String) :
    varsLookup (applyRegistrations s msgs).g.vars k =
      (match lastRegistered msgs k with
       | some w => some w
       | none => varsLookup s.g.vars k) ∧
    (applyRegistrations s msgs).running = true ∧
    (loopRun s (msgs.map fun p => Msg.registration p.1 p.2)).2 = [] := by
  revert h
  induction msgs generalizing s k with
  | nil =>
    intro h
    exact ⟨rfl, h, rfl⟩
  | cons p rest ih =>
    intro h
    obtain ⟨k0, v0⟩ := p
    have hstep : loopStep s (.registration k0 v0) =
        ({ s with g := { s.g with vars := mapAssign s.g.vars k0 v0 } },
          [], false) := by
      simp [loopStep, h]
    have happ : applyRegistrations s ((k0, v0) :: rest) =
        applyRegistrations
          { s with g := { s.g with vars := mapAssign s.g.vars k0 v0 } } rest := by
      simp [applyRegistrations, loopRun, hstep]
    have ih' := ih
      { s with g := { s.g with vars := mapAssign s.g.vars k0 v0 } } k h
    refine ⟨?_, ?_, ?_⟩
    · rw [happ, ih'.1]
      cases hlast : lastRegistered rest k with
      | some w => simp [lastRegistered, hlast]
      | none =>
        simp only [lastRegistered, hlast, varsLookup_mapAssign]
        by_cases hk : k = k0
        · subst hk; simp
        · have hk' : ¬(k0 = k) := fun hh => hk hh.symm
          simp [hk, hk']
    · rw [happ]; exact ih'.2.1
    · simp only [List.map_cons, loopRun, hstep]
      have := ih'.2.2
      simp [this]

/-- Witness for C4: registering `a` twice and `b` once leaves `a` at its
second value, `b` present, and an unregistered name absent. -/
theorem last_write_wins_witness :
    varsLookup (applyRegistrations ⟨gEx, true⟩
      [("a", "1"), ("a", "2"), ("b", "3")]).g.vars "a" = some "2" ∧
    varsLookup (applyRegistrations ⟨gEx, true⟩
      [("a", "1"), ("a", "2"), ("b", "3")]).g.vars "b" = some "3" ∧
    varsLookup (applyRegistrations ⟨gEx, true⟩
      [("a", "1"), ("a", "2"), ("b", "3")]).g.vars "c" = none := by
  have ha := last_write_wins [("a", "1"), ("a", "2"), ("b", "3")]
    ⟨gEx, true⟩ rfl "a"
  have hb := last_write_wins [("a", "1"), ("a", "2"), ("b", "3")]
    ⟨gEx, true⟩ rfl "b"
  have hc := last_write_wins [("a", "1"), ("a", "2"), ("b", "3")]
    ⟨gEx, true⟩ rfl "c"
  exact ⟨ha.1.trans (by decide), hb.1.trans (by decide),
    hc.1.trans (by decide)⟩

/-- Claim C5. Cadence: the delay until the next pass is
`(lastPublish + interval) − now`; a completed pass sets `lastPublish` to
the pass-end clock unconditionally, whatever each send's outcome, so the
next delay is computed from the pass end; the timer set at `now` expires
exactly at `lastPublish + interval` (so with a positive delay no pass
starts earlier, and the delay is ≤ 0 precisely when that instant has
passed); and one timer expiry runs exactly one pass. -/
theorem cadence (envs : Nat → NetEnv) (passEnd : Int) (g : GState)
    (now : Int) (s : LoopState) (h : s.running = true) :
    (postAll envs passEnd g).1.lastPublish = passEnd ∧
    nextPublishDelay (postAll envs passEnd g).1 now =
      passEnd + g.interval - now ∧
    now + nextPublishDelay g now = g.lastPublish + g.interval ∧
    (nextPublishDelay g now ≤ 0 ↔ g.lastPublish + g.interval ≤ now) ∧
    (loopStep s (.timer envs passEnd)).1.g = (postAll envs passEnd s.g).1 := by
  have hint : (postAll envs passEnd g).1.interval = g.interval := by
    simp [postAll, postList_interval]
  have hlp : (postAll envs passEnd g).1.lastPublish = passEnd := by
    simp [postAll]
  refine ⟨hlp, ?_, by unfold nextPublishDelay; ring,
    by unfold nextPublishDelay; omega, by simp [loopStep, h]⟩
  unfold nextPublishDelay
  rw [hlp, hint]

/-- Witness for C5 at concrete inputs: even with every send failing, the
pass-end clock 50 becomes the new baseline, the next delay from time 55 is
5, and the timer step performed exactly the one pass. -/
theorem cadence_witness :
    (postAll (fun _ => envWriteFail) 50
      { gEx with vars := [("load", "0.5")] }).1.lastPublish = 50 ∧
    nextPublishDelay (postAll (fun _ => envWriteFail) 50
      { gEx with vars := [("load", "0.5")] }).1 55 = 5 ∧
    (loopStep ⟨{ gEx with vars := [("load", "0.5")] }, true⟩
        (.timer (fun _ => envWriteFail) 50)).1.g =
      (postAll (fun _ => envWriteFail) 50
        { gEx with vars := [("load", "0.5")] }).1 := by
  have h := cadence (fun _ => envWriteFail) 50
    { gEx with vars := [("load", "0.5")] } 55
    ⟨{ gEx with vars := [("load", "0.5")] }, true⟩ rfl
  exact ⟨h.1, h.2.1.trans (by decide), h.2.2.2.2⟩

/-- Claim C6. Reconnect exactly once when absent: a send that finds no
connection dials exactly once, before anything else; a failed dial aborts
the send with the dial error, with no write and no state change and no
retry; a successful dial installs the fresh connection and the send's
writes all go to it. -/
theorem reconnect_once_when_absent (env : NetEnv) (g : GState)
    (name value : String) (h : g.connection = none) :
    (postOne env g name value).2.2.countP Event.isDial = 1 ∧
    (postOne env g name value).2.2.head? = some (.dialAttempt g.endpoint) ∧
    (∀ e, env.dialConn = .error e →
      postOne env g name value =
        (g, some (.dialErr e), [.dialAttempt g.endpoint])) ∧
    (∀ c, env.dialConn = .ok c →
      (postOne env g name value).1.connection = some c ∧
      ∀ c' b, Event.write c' b ∈ (postOne env g name value).2.2 →
        c' = c) := by
  refine ⟨?_, ?_, ?_, ?_⟩
  · cases hd : env.dialConn with
    | error e => simp [postOne, h, hd, Event.isDial]
    | ok c =>
      have hev := (postOneWith_events env { g with connection := some c } c
        name value).1
      simp [postOne, h, hd, List.countP_cons, Event.isDial, hev]
  · cases hd : env.dialConn with
    | error e => simp [postOne, h, hd]
    | ok c => simp [postOne, h, hd]
  · intro e he
    simp [postOne, h, he]
  · intro c hcc
    have hev := postOneWith_events env { g with connection := some c } c
      name value
    have hst := postOneWith_state env { g with connection := some c } c
      name value
    constructor
    · simp [postOne, h, hcc, hst]
    · intro c' b hb
      simp only [postOne, h, hcc] at hb
      rcases List.mem_cons.mp hb with hb' | hb'
      · exact Event.noConfusion hb'
      · exact (hev.2.2 c' b hb').1

/-- Witness for C6: with no connection, a refused dial yields exactly the
dial error and a lone dial attempt; a successful dial leaves the fresh
connection installed. -/
theorem reconnect_once_when_absent_witness :
    postOne envDialFail gNoConn "load" "0.5" =
      (gNoConn, some (.dialErr "connection refused"),
        [.dialAttempt "stats:2003"]) ∧
    (postOne envEx gNoConn "load" "0.5").1.connection = some ⟨7⟩ := by
  have h1 := reconnect_once_when_absent envDialFail gNoConn "load" "0.5" rfl
  have h2 := reconnect_once_when_absent envEx gNoConn "load" "0.5" rfl
  exact ⟨h1.2.2.1 "connection refused" rfl, (h2.2.2.2 ⟨7⟩ rfl).1⟩

/-- Claim C7. Broken connection is kept: a send on an established
connection leaves the whole state — the connection field included —
unchanged whatever error the deadline or write produces, and performs no
dial attempt; so the next send reuses the same possibly-broken
connection. -/
theorem broken_connection_kept (env : NetEnv) (g : GState) (c : Conn)
    (name value : String) (h : g.connection = some c) :
    (postOne env g name value).1 = g ∧
    (postOne env g name value).2.2.countP Event.isDial = 0 := by
  simp only [postOne, h]
  exact ⟨postOneWith_state env g c name value,
    (postOneWith_events env g c name value).1⟩

/-- Witness for C7: after a send whose write fails with a transport error,
the sample state — its connection included — is unchanged and nothing was
dialled. -/
theorem broken_connection_kept_witness :
    (postOne envWriteFail gEx "load" "0.5").1 = gEx ∧
    (postOne envWriteFail gEx "load" "0.5").2.2.countP Event.isDial = 0 :=
  broken_connection_kept envWriteFail gEx ⟨7⟩ "load" "0.5" rfl

/-- Claim C8. Short-write detection: when the write reports no error but
fewer bytes than the line's length, the send returns the short-write
error — never the write/deadline/dial errors and never success — and the
line was written exactly once (no retry or completion of the partial
line). -/
theorem short_write_detected (env : NetEnv) (g : GState) (c : Conn)
    (name value : String) (n : Nat)
    (h1 : g.connection = some c) (h2 : env.deadlineRes = none)
    (h3 : env.writeRes = .ok n)
    (h4 : n < (formatLine name value env.nowUnix).utf8ByteSize) :
    (postOne env g name value).2.1 =
      some (.shortWrite name value n
        (formatLine name value env.nowUnix).utf8ByteSize) ∧
    (∀ e, (postOne env g name value).2.1 ≠ some (.writeErr e)) ∧
    (∀ e, (postOne env g name value).2.1 ≠ some (.deadlineErr e)) ∧
    (∀ e, (postOne env g name value).2.1 ≠ some (.dialErr e)) ∧
    (postOne env g name value).2.1 ≠ none ∧
    (postOne env g name value).2.2.countP Event.isWrite = 1 := by
  have hne : n ≠ (formatLine name value env.nowUnix).utf8ByteSize :=
    Nat.ne_of_lt h4
  simp [postOne, postOneWith, h1, h2, h3, hne, Event.isWrite,
    List.countP_cons]

/-- Witness for C8: a 3-byte write of the 12-byte sample line is reported
as the short-write error carrying 3 and 12. -/
theorem short_write_detected_witness :
    (postOne envShort gEx "load" "0.5").2.1 =
      some (.shortWrite "load" "0.5" 3
        (formatLine "load" "0.5" 99).utf8ByteSize) ∧
    (postOne envShort gEx "load" "0.5").2.2.countP Event.isWrite = 1 := by
  have h := short_write_detected envShort gEx ⟨7⟩ "load" "0.5" 3
    rfl rfl rfl (by decide)
  exact ⟨h.1, h.2.2.2.2.2⟩

/-- Claim C9. Wire line format: a send writes at most once, and anything it
writes is exactly `name`, a space, the value text, a space, the unix time
in seconds in decimal, and a newline — one line, no batching or extra
framing. -/
theorem wire_line_single_write (env : NetEnv) (g : GState)
    (name value : String) :
    (postOne env g name value).2.2.countP Event.isWrite ≤ 1 ∧
    ∀ c b, Event.write c b ∈ (postOne env g name value).2.2 →
      b = name ++ " " ++ value ++ " " ++ toString env.nowUnix ++ "\n" := by
  unfold postOne
  cases hc : g.connection with
  | some c =>
    have hev := postOneWith_events env g c name value
    exact ⟨hev.2.1, fun c' b hb => (hev.2.2 c' b hb).2⟩
  | none =>
    cases hd : env.dialConn with
    | error e => simp [Event.isWrite]
    | ok c =>
      have hev := postOneWith_events env { g with connection := some c } c
        name value
      constructor
      · simp [List.countP_cons, Event.isWrite, hev.2.1]
      · rintro c' b hb
        simp only [List.mem_cons] at hb
        rcases hb with hb | hb
        · exact Event.noConfusion hb
        · exact (hev.2.2 c' b hb).2

/-- Witness for C9: the successful sample send writes the 12-byte line
`load 0.5 99\n`, which is exactly the specified concatenation. -/
theorem wire_line_single_write_witness :
    "load 0.5 99\n" =
      "load" ++ " " ++ "0.5" ++ " " ++ toString (99 : Int) ++ "\n" :=
  (wire_line_single_write envEx gEx "load" "0.5").2 ⟨7⟩ "load 0.5 99\n"
    (by decide)

/-- Claim C10 counterexample: `Register` does not return after the
coordinator has shut down — the send on the capacity-0 channel
`g.registrations` blocks forever, so the message is not "silently dropped
with an immediate return to the caller" as claimed. -/
theorem register_after_shutdown_blocks :
    registerReturns { g := gNoConn, running := false } = false := rfl

/-- Claim C10 as amended: `Register` performs a rendezvous send on the
unbuffered registrations channel — it returns exactly when the running
event loop receives the message; the processed registration assigns into
the registry with no event and no error path; once the loop has shut down
the call never returns and the message is never processed. -/
theorem register_rendezvous (s : LoopState) (name v : String) :
    registerReturns s = s.running ∧
    (s.running = true →
      loopStep s (.registration name v) =
        ({ s with g := { s.g with vars := mapAssign s.g.vars name v } },
          [], false)) ∧
    (s.running = false →
      loopStep s (.registration name v) = (s, [], false)) := by
  refine ⟨?_, ?_, ?_⟩
  · simp [registerReturns, registrationsChanCap, loopReceiverReady]
  · intro h; simp [loopStep, h]
  · intro h; simp [loopStep, h]

/-- Witness for the amended C10: on the running sample state `Register`
returns and the registration is applied with no event; on the shut-down
state it does not return. -/
theorem register_rendezvous_witness :
    registerReturns { g := gEx, running := true } = true ∧
    loopStep { g := gEx, running := true } (.registration "a" "1") =
      ({ g := { gEx with vars := mapAssign gEx.vars "a" "1" },
         running := true }, [], false) ∧
    registerReturns { g := gNoConn, running := false } = false := by
  have h1 := register_rendezvous { g := gEx, running := true } "a" "1"
  have h2 := register_rendezvous { g := gNoConn, running := false } "a" "1"
  exact ⟨h1.1, h1.2.1 rfl, h2.1⟩

end G2G
